import Mathlib

set_option maxRecDepth 8000

namespace TLD

/-- Source constant MAX_REASONING_TRACE_LEN (index.ts line 5): maximum length of
one reasoning trace segment. -/
def MAX_REASONING_TRACE_LEN : Nat := 300

/-- Source constant MAX_REASONING_HISTORY_SEGMENTS (index.ts line 6): capacity of
the sliding window of trace segments. -/
def MAX_REASONING_HISTORY_SEGMENTS : Nat := 20

/-- Source constant MIN_LEVENSHTEIN_DISTANCE (index.ts line 7): loop-detection
threshold on the edit distance. -/
def MIN_LEVENSHTEIN_DISTANCE : Nat := 30

/-- Whitespace test modelling the JavaScript regular-expression class \s,
restricted to the ASCII whitespace characters. -/
def isWs (c : Char) : Bool :=
  c = ' ' || c = '\t' || c = '\n' || c = '\r' || c = '\x0b' || c = '\x0c'

/-- One pass collapsing each maximal run of whitespace characters to a single
space, modelling the replacement of \s+ by one space in updateDelta
(index.ts line 22). The boolean records whether the previous character was part
of a whitespace run whose single space has already been emitted. -/
def collapseWsAux : Bool → List Char → List Char
  | _, [] => []
  | prevWs, c :: cs =>
    if isWs c then
      if prevWs then collapseWsAux true cs
      else ' ' :: collapseWsAux true cs
    else c :: collapseWsAux false cs

/-- Collapse runs of whitespace to single spaces. -/
def collapseWs (l : List Char) : List Char := collapseWsAux false l

/-- Remove leading and trailing whitespace, modelling the trim call. -/
def trimWs (l : List Char) : List Char :=
  ((l.dropWhile fun c => isWs c).reverse.dropWhile fun c => isWs c).reverse

/-- The delta normalization of updateDelta (index.ts line 22): case-fold the
delta, collapse each whitespace run to one space, then trim. -/
def normalize (d : String) : String :=
  String.mk (trimWs (collapseWs (d.data.map Char.toLower)))

/-- Character-level model of the JavaScript slice(0, n) on strings. -/
def strTake (s : String) (n : Nat) : String := String.mk (s.data.take n)

/-- Character-level model of the JavaScript slice(n) on strings. -/
def strDrop (s : String) (n : Nat) : String := String.mk (s.data.drop n)

/-- Modelled from the spec: the character-level Levenshtein edit distance, the
behavior of the external fastest-levenshtein library's distance function, which
is not part of this repository. Written with a fuel argument so that the
recursion is structural; fuel xs.length + ys.length always suffices, and the
third equation is never reached from distance below. -/
def levAux : Nat → List Char → List Char → Nat
  | _, [], ys => ys.length
  | _, x :: xs, [] => (x :: xs).length
  | 0, _ :: _, _ :: _ => 0
  | fuel + 1, x :: xs, y :: ys =>
    if x = y then levAux fuel xs ys
    else 1 + min (levAux fuel xs (y :: ys)) (min (levAux fuel (x :: xs) ys) (levAux fuel xs ys))

/-- Modelled from the spec: distance(a, b) from the fastest-levenshtein import
(index.ts line 3), the character-level Levenshtein distance. -/
def distance (a b : String) : Nat :=
  levAux (a.data.length + b.data.length) a.data b.data

/-- Per-session state, class SessionState (index.ts lines 9-15): the rolling
reasoning history, the id of the injected corrective message awaiting its echo,
and the in-flight interrupt flag. -/
structure SessionState where
  reasoningHistory : List String
  abortMessageID : Option String
  pendingAbort : Bool
deriving DecidableEq

/-- The fresh state built by the SessionState constructor (index.ts line 13). -/
def initialSessionState : SessionState := ⟨[], none, false⟩

/-- The append phase of SessionState.updateDelta (index.ts lines 22-38): build
the new trace from the last retained segment plus the normalized delta, and
split it at MAX_REASONING_TRACE_LEN when it overflows. When the history is
empty and the trace overflows, the source's write
history[history.length - 1] = trace.slice(0, 300) targets JavaScript index -1,
which creates a non-index property that the array never exposes again, so only
the remainder trace.slice(300) is pushed; this embedding reproduces that
behavior with the isEmpty branch. -/
def appendPhase (hist : List String) (nd : String) : List String :=
  if MAX_REASONING_TRACE_LEN < (hist.getLast?.getD "" ++ nd).length then
    if hist.isEmpty then
      [strDrop (hist.getLast?.getD "" ++ nd) MAX_REASONING_TRACE_LEN]
    else
      hist.dropLast ++ [strTake (hist.getLast?.getD "" ++ nd) MAX_REASONING_TRACE_LEN,
        strDrop (hist.getLast?.getD "" ++ nd) MAX_REASONING_TRACE_LEN]
  else if 0 < hist.length then
    hist.dropLast ++ [hist.getLast?.getD "" ++ nd]
  else
    [hist.getLast?.getD "" ++ nd]

/-- The eviction loop of updateDelta (index.ts lines 40-42): while the segment
count exceeds the capacity, shift the oldest segment off the front. Written
with a fuel argument so that the recursion is structural; fuel l.length always
suffices. -/
def evictLoopAux : Nat → List String → List String
  | 0, l => l
  | fuel + 1, l =>
    if MAX_REASONING_HISTORY_SEGMENTS < l.length then evictLoopAux fuel (l.drop 1)
    else l

/-- The eviction loop of updateDelta at sufficient fuel. -/
def evictLoop (l : List String) : List String := evictLoopAux l.length l

/-- Model of SessionState.updateDelta (index.ts lines 17-43): no-op on an
absent delta, otherwise normalize the delta, append and split, then evict down
to the capacity. -/
def updateDelta (hist : List String) (delta : Option String) : List String :=
  match delta with
  | none => hist
  | some d => evictLoop (appendPhase hist (normalize d))

/-- Model of SessionState.getMinSimilarity (index.ts lines 45-60): 0 when the
history is empty, otherwise the minimum distance between the last segment and
every other retained segment, folded exactly as the source's for-loop starting
from the sentinel 1000000000. -/
def getMinSimilarity (hist : List String) : Nat :=
  match hist.getLast? with
  | none => 0
  | some lastTrace =>
    hist.dropLast.foldl
      (fun minDistance trace =>
        if distance lastTrace trace < minDistance then distance lastTrace trace
        else minDistance)
      1000000000

/-- Model of SessionState.detectThoughtLoop (index.ts lines 62-83): false below
the history capacity; at capacity, compare a supplied distance against the
threshold, or scan the earlier segments for one within the threshold. -/
def detectThoughtLoop (hist : List String) (minSimilarity : Option Nat) : Bool :=
  if hist.length < MAX_REASONING_HISTORY_SEGMENTS then false
  else
    match hist.getLast? with
    | none => false
    | some lastTrace =>
      match minSimilarity with
      | some m => decide (m < MIN_LEVENSHTEIN_DISTANCE)
      | none =>
        hist.dropLast.any fun trace =>
          decide (distance lastTrace trace < MIN_LEVENSHTEIN_DISTANCE)

/-- Outbound effects of the handler: the two session-control collaborator calls
client.session.abort and client.session.prompt, and the diagnostic log sink
client.app.log tagged with its level. -/
inductive ExtCall where
  | abortSession : ExtCall
  | promptSession : ExtCall
  | logCall : String → ExtCall
deriving DecidableEq

/-- Model of ThoughtLoopDetector.handleMessagePartUpdate restricted to one
session's reasoning-delta transition (index.ts lines 136-182). The results of
the two awaited collaborator calls are passed in as oracle arguments: promptRes
carries the injected message's assigned id (promptRes.data.info.id) on success,
and abortRes carries the abort acknowledgment. The function returns the updated
session state together with the collaborator calls issued, in program order. -/
def handleReasoningDelta (s : SessionState) (messageID : String) (delta : Option String)
    (promptRes : Except String String) (abortRes : Except String Bool) :
    SessionState × List ExtCall :=
  if s.abortMessageID = some messageID then
    ({ s with abortMessageID := none, pendingAbort := false }, [.logCall "debug"])
  else if s.pendingAbort then
    (s, [.logCall "debug"])
  else
    if detectThoughtLoop (updateDelta s.reasoningHistory delta)
        (some (getMinSimilarity (updateDelta s.reasoningHistory delta))) then
      match promptRes with
      | .error _ =>
        ({ s with pendingAbort := true, reasoningHistory := [] },
          [.logCall "debug", .abortSession, .promptSession, .logCall "warn", .logCall "error"])
      | .ok mid =>
        match abortRes with
        | .error _ =>
          ({ s with pendingAbort := true, reasoningHistory := [], abortMessageID := some mid },
            [.logCall "debug", .abortSession, .promptSession, .logCall "warn",
              .logCall "debug", .logCall "error"])
        | .ok acked =>
          if acked then
            ({ s with pendingAbort := true, reasoningHistory := [], abortMessageID := some mid },
              [.logCall "debug", .abortSession, .promptSession, .logCall "warn",
                .logCall "debug", .logCall "debug"])
          else
            ({ s with pendingAbort := true, reasoningHistory := [], abortMessageID := some mid },
              [.logCall "debug", .abortSession, .promptSession, .logCall "warn",
                .logCall "debug", .logCall "error"])
    else
      ({ s with reasoningHistory := updateDelta s.reasoningHistory delta },
        [.logCall "debug"])

/-- Ingest a whole sequence of deltas into a fresh history through updateDelta. -/
def ingestAll (ds : List (Option String)) : List String :=
  ds.foldl updateDelta []

/-- States of one session reachable from the fresh state through the
reasoning-delta transition, for arbitrary deltas, message ids and collaborator
responses. -/
inductive Reachable : SessionState → Prop where
  | init : Reachable initialSessionState
  | step (s : SessionState) (messageID : String) (delta : Option String)
      (promptRes : Except String String) (abortRes : Except String Bool) :
      Reachable s → Reachable (handleReasoningDelta s messageID delta promptRes abortRes).1

/-- A full segment of 300 identical characters, used for concrete runs. -/
def A : String := String.mk (List.replicate 300 'a')

/-- The quiescent session state holding i copies of the full segment A. -/
def st (i : Nat) : SessionState := ⟨List.replicate i A, none, false⟩

lemma foldl_min_lt_iff (lastT : String) (l : List String) (m c : Nat) :
    (l.foldl
      (fun minDistance trace =>
        if distance lastT trace < minDistance then distance lastT trace else minDistance)
      m) < c ↔
    m < c ∨ ∃ t ∈ l, distance lastT t < c := by
  induction l generalizing m with
  | nil => simp
  | cons t ts ih =>
    rw [List.foldl_cons, ih]
    have hstep : ((if distance lastT t < m then distance lastT t else m) < c) ↔
        (m < c ∨ distance lastT t < c) := by
      split <;> omega
    rw [hstep, List.exists_mem_cons_iff]
    tauto

lemma getMinSimilarity_concat_lt_iff (l : List String) (lastT : String) (c : Nat)
    (hc : c ≤ 1000000000) :
    (getMinSimilarity (l ++ [lastT]) < c ↔ ∃ t ∈ l, distance lastT t < c) := by
  rw [getMinSimilarity]
  rw [List.getLast?_concat]
  rw [List.dropLast_concat]
  rw [foldl_min_lt_iff]
  constructor
  · rintro (h | h)
    · omega
    · exact h
  · exact Or.inr

/-- Claim C1: detectThoughtLoop returns false whenever fewer than
MAX_REASONING_HISTORY_SEGMENTS (20) segments are retained, regardless of
contents or of any supplied distance; once at the cap it returns true exactly
when the minimum Levenshtein distance between the last segment and some earlier
retained segment is strictly below MIN_LEVENSHTEIN_DISTANCE (30), both when the
distance is supplied as getMinSimilarity's result and when computed
internally. -/
theorem C1_detect_cap_and_threshold (h : List String) (d : Option Nat) :
    (h.length < MAX_REASONING_HISTORY_SEGMENTS → detectThoughtLoop h d = false) ∧
    (MAX_REASONING_HISTORY_SEGMENTS ≤ h.length →
      ((detectThoughtLoop h (some (getMinSimilarity h)) = true ↔
          ∃ t ∈ h.dropLast, distance (h.getLast?.getD "") t < MIN_LEVENSHTEIN_DISTANCE) ∧
        (detectThoughtLoop h none = true ↔
          ∃ t ∈ h.dropLast, distance (h.getLast?.getD "") t < MIN_LEVENSHTEIN_DISTANCE))) := by
  constructor
  · intro hlt
    simp [detectThoughtLoop, hlt]
  · intro hge
    have hlen : ¬ h.length < MAX_REASONING_HISTORY_SEGMENTS := by omega
    have hne : h ≠ [] := by
      intro e
      rw [e] at hge
      simp [MAX_REASONING_HISTORY_SEGMENTS] at hge
    rcases List.eq_nil_or_concat h with he | ⟨l', lastT, he⟩
    · exact absurd he hne
    rw [List.concat_eq_append] at he
    subst he
    rw [List.getLast?_concat, List.dropLast_concat]
    constructor
    · rw [detectThoughtLoop]
      rw [if_neg hlen]
      rw [List.getLast?_concat]
      rw [decide_eq_true_eq]
      rw [getMinSimilarity_concat_lt_iff l' lastT MIN_LEVENSHTEIN_DISTANCE
        (by simp [MIN_LEVENSHTEIN_DISTANCE])]
      simp
    · rw [detectThoughtLoop]
      rw [if_neg hlen]
      rw [List.getLast?_concat, List.dropLast_concat]
      rw [List.any_eq_true]
      simp only [decide_eq_true_eq, Option.getD_some]

/-- Claim C1 witness: five identical segments stay below the cap so no loop is
declared; twenty identical one-character segments are at the cap and both the
supplied-distance and internal paths declare a loop. -/
theorem C1_witness :
    detectThoughtLoop (List.replicate 5 "a") none = false ∧
    detectThoughtLoop (List.replicate 20 "a") (some (getMinSimilarity (List.replicate 20 "a"))) = true ∧
    detectThoughtLoop (List.replicate 20 "a") none = true := by
  refine ⟨(C1_detect_cap_and_threshold (List.replicate 5 "a") none).1 (by decide), ?_, ?_⟩
  · exact ((C1_detect_cap_and_threshold (List.replicate 20 "a") none).2 (by decide)).1.mpr
      ⟨"a", by decide, by decide⟩
  · exact ((C1_detect_cap_and_threshold (List.replicate 20 "a") none).2 (by decide)).2.mpr
      ⟨"a", by decide, by decide⟩

/-- Claim C2: in a state with pendingInterruptMessageId = some M and
interruptInFlight true, a reasoning delta carrying messageId M clears both
fields and stops: traceSegments is not mutated, loop detection does not run,
and no abort or prompt call is issued (only the debug log fires). -/
theorem C2_echo_suppression (s : SessionState) (M : String) (delta : Option String)
    (promptRes : Except String String) (abortRes : Except String Bool)
    (h1 : s.abortMessageID = some M) (h2 : s.pendingAbort = true) :
    handleReasoningDelta s M delta promptRes abortRes =
      ({ s with abortMessageID := none, pendingAbort := false }, [ExtCall.logCall "debug"]) ∧
    (handleReasoningDelta s M delta promptRes abortRes).1.reasoningHistory = s.reasoningHistory ∧
    ExtCall.abortSession ∉ (handleReasoningDelta s M delta promptRes abortRes).2 ∧
    ExtCall.promptSession ∉ (handleReasoningDelta s M delta promptRes abortRes).2 := by
  have he : handleReasoningDelta s M delta promptRes abortRes =
      ({ s with abortMessageID := none, pendingAbort := false }, [ExtCall.logCall "debug"]) := by
    simp [handleReasoningDelta, h1]
  refine ⟨he, ?_, ?_, ?_⟩ <;> rw [he] <;> simp

/-- Claim C2 witness at a concrete state and event. -/
theorem C2_witness :
    handleReasoningDelta ⟨["x"], some "m1", true⟩ "m1" (some "d") (Except.ok "z") (Except.ok true) =
      (⟨["x"], none, false⟩, [ExtCall.logCall "debug"]) ∧
    (handleReasoningDelta ⟨["x"], some "m1", true⟩ "m1" (some "d") (Except.ok "z") (Except.ok true)).1.reasoningHistory = ["x"] ∧
    ExtCall.abortSession ∉ (handleReasoningDelta ⟨["x"], some "m1", true⟩ "m1" (some "d") (Except.ok "z") (Except.ok true)).2 ∧
    ExtCall.promptSession ∉ (handleReasoningDelta ⟨["x"], some "m1", true⟩ "m1" (some "d") (Except.ok "z") (Except.ok true)).2 :=
  C2_echo_suppression ⟨["x"], some "m1", true⟩ "m1" (some "d") (Except.ok "z") (Except.ok true) rfl rfl

/-- Claim C3 amended, the direction that holds: in every reachable state,
whenever pendingInterruptMessageId is set, interruptInFlight is true. -/
theorem C3_pending_implies_inflight (s : SessionState) (h : Reachable s) :
    s.abortMessageID = none ∨ s.pendingAbort = true := by
  induction h with
  | init => exact Or.inl rfl
  | step s' messageID delta promptRes abortRes hr ih =>
    unfold handleReasoningDelta
    split
    case isTrue h1 => exact Or.inl rfl
    case isFalse h1 =>
      split
      case isTrue h2 => exact ih
      case isFalse h2 =>
        split
        case isTrue hdet =>
          cases promptRes with
          | error e => exact Or.inr rfl
          | ok mid =>
            cases abortRes with
            | error e2 => exact Or.inr rfl
            | ok acked => cases acked <;> simp
        case isFalse hdet =>
          rcases ih with h3 | h3
          · exact Or.inl h3
          · exact absurd h3 h2

/-- Claim C3 amended witness at the initial reachable state. -/
theorem C3_witness :
    initialSessionState.abortMessageID = none ∨ initialSessionState.pendingAbort = true :=
  C3_pending_implies_inflight initialSessionState Reachable.init

lemma reach_next (s s' : SessionState) (messageID : String) (delta : Option String)
    (promptRes : Except String String) (abortRes : Except String Bool)
    (h : Reachable s) (he : (handleReasoningDelta s messageID delta promptRes abortRes).1 = s') :
    Reachable s' :=
  he ▸ Reachable.step s messageID delta promptRes abortRes h

lemma reach_st1 : Reachable (st 1) := reach_next _ _ "m" (some A) (.error "x") (.error "x") Reachable.init (by decide)

lemma reach_st2 : Reachable (st 2) := reach_next _ _ "m" (some A) (.error "x") (.error "x") reach_st1 (by decide)

lemma reach_st3 : Reachable (st 3) := reach_next _ _ "m" (some A) (.error "x") (.error "x") reach_st2 (by decide)

lemma reach_st4 : Reachable (st 4) := reach_next _ _ "m" (some A) (.error "x") (.error "x") reach_st3 (by decide)

lemma reach_st5 : Reachable (st 5) := reach_next _ _ "m" (some A) (.error "x") (.error "x") reach_st4 (by decide)

lemma reach_st6 : Reachable (st 6) := reach_next _ _ "m" (some A) (.error "x") (.error "x") reach_st5 (by decide)

lemma reach_st7 : Reachable (st 7) := reach_next _ _ "m" (some A) (.error "x") (.error "x") reach_st6 (by decide)

lemma reach_st8 : Reachable (st 8) := reach_next _ _ "m" (some A) (.error "x") (.error "x") reach_st7 (by decide)

lemma reach_st9 : Reachable (st 9) := reach_next _ _ "m" (some A) (.error "x") (.error "x") reach_st8 (by decide)

lemma reach_st10 : Reachable (st 10) := reach_next _ _ "m" (some A) (.error "x") (.error "x") reach_st9 (by decide)

lemma reach_st11 : Reachable (st 11) := reach_next _ _ "m" (some A) (.error "x") (.error "x") reach_st10 (by decide)

lemma reach_st12 : Reachable (st 12) := reach_next _ _ "m" (some A) (.error "x") (.error "x") reach_st11 (by decide)

lemma reach_st13 : Reachable (st 13) := reach_next _ _ "m" (some A) (.error "x") (.error "x") reach_st12 (by decide)

lemma reach_st14 : Reachable (st 14) := reach_next _ _ "m" (some A) (.error "x") (.error "x") reach_st13 (by decide)

lemma reach_st15 : Reachable (st 15) := reach_next _ _ "m" (some A) (.error "x") (.error "x") reach_st14 (by decide)

lemma reach_st16 : Reachable (st 16) := reach_next _ _ "m" (some A) (.error "x") (.error "x") reach_st15 (by decide)

lemma reach_st17 : Reachable (st 17) := reach_next _ _ "m" (some A) (.error "x") (.error "x") reach_st16 (by decide)

lemma reach_st18 : Reachable (st 18) := reach_next _ _ "m" (some A) (.error "x") (.error "x") reach_st17 (by decide)

lemma reach_st19 : Reachable (st 19) := reach_next _ _ "m" (some A) (.error "x") (.error "x") reach_st18 (by decide)

lemma reach_bad : Reachable ⟨[], none, true⟩ :=
  reach_next _ _ "m" (some A) (.error "x") (.error "x") reach_st19 (by decide)

/-- Claim C3 counterexample: the two fields do not open and close together in
every reachable state. Nineteen full 300-character segments followed by one
more identical delta trigger detection with 20 retained segments; when the
injection (prompt) call errors, the handler returns with interruptInFlight
still true while pendingInterruptMessageId was never set, a reachable state
violating the claimed equivalence. -/
theorem C3_counterexample :
    ¬ (∀ s : SessionState, Reachable s → (s.abortMessageID.isSome ↔ s.pendingAbort = true)) := by
  intro hall
  have := (hall ⟨[], none, true⟩ reach_bad).2 rfl
  simp [Option.isSome] at this

lemma dropLast_drop' {α : Type} (l : List α) (n : Nat) :
    (l.drop n).dropLast = l.dropLast.drop n := by
  rw [List.dropLast_eq_take, List.dropLast_eq_take, List.drop_take, List.length_drop]
  congr 1
  omega

lemma mem_dropLast_evictLoopAux (fuel : Nat) (l : List String) (x : String)
    (hx : x ∈ (evictLoopAux fuel l).dropLast) : x ∈ l.dropLast := by
  induction fuel generalizing l with
  | zero =>
    rw [evictLoopAux] at hx
    exact hx
  | succ n ih =>
    rw [evictLoopAux] at hx
    split at hx
    · have := ih (l.drop 1) hx
      rw [dropLast_drop'] at this
      exact List.mem_of_mem_drop this
    · exact hx

lemma strTake_length (s : String) (n : Nat) (h : n ≤ s.length) :
    (strTake s n).length = n := by
  have hd : s.length = s.data.length := rfl
  show (s.data.take n).length = n
  rw [List.length_take]
  omega

lemma appendPhase_dropLast_mem (hist : List String) (nd x : String)
    (hP : ∀ y ∈ hist.dropLast, y.length = MAX_REASONING_TRACE_LEN)
    (hx : x ∈ (appendPhase hist nd).dropLast) : x.length = MAX_REASONING_TRACE_LEN := by
  rw [appendPhase] at hx
  split at hx
  case isTrue hover =>
    split at hx
    case isTrue hemp => simp at hx
    case isFalse hemp =>
      have : (hist.dropLast ++ [strTake (hist.getLast?.getD "" ++ nd) MAX_REASONING_TRACE_LEN,
          strDrop (hist.getLast?.getD "" ++ nd) MAX_REASONING_TRACE_LEN]).dropLast =
          hist.dropLast ++ [strTake (hist.getLast?.getD "" ++ nd) MAX_REASONING_TRACE_LEN] := by
        rw [show [strTake (hist.getLast?.getD "" ++ nd) MAX_REASONING_TRACE_LEN,
            strDrop (hist.getLast?.getD "" ++ nd) MAX_REASONING_TRACE_LEN] =
            [strTake (hist.getLast?.getD "" ++ nd) MAX_REASONING_TRACE_LEN] ++
            [strDrop (hist.getLast?.getD "" ++ nd) MAX_REASONING_TRACE_LEN] from rfl]
        rw [← List.append_assoc, List.dropLast_concat]
      rw [this, List.mem_append] at hx
      rcases hx with hx | hx
      · exact hP x hx
      · simp at hx
        subst hx
        exact strTake_length _ _ (by omega)
  case isFalse hover =>
    split at hx
    case isTrue hpos =>
      rw [List.dropLast_concat] at hx
      exact hP x hx
    case isFalse hpos => simp at hx

lemma updateDelta_dropLast_mem (h : List String) (d : Option String)
    (hP : ∀ y ∈ h.dropLast, y.length = MAX_REASONING_TRACE_LEN) :
    ∀ x ∈ (updateDelta h d).dropLast, x.length = MAX_REASONING_TRACE_LEN := by
  intro x hx
  cases d with
  | none => exact hP x hx
  | some d =>
    rw [updateDelta] at hx
    exact appendPhase_dropLast_mem h (normalize d) x hP (mem_dropLast_evictLoopAux _ _ x hx)

lemma foldl_updateDelta_dropLast_mem (ds : List (Option String)) :
    ∀ h : List String, (∀ y ∈ h.dropLast, y.length = MAX_REASONING_TRACE_LEN) →
      ∀ x ∈ (ds.foldl updateDelta h).dropLast, x.length = MAX_REASONING_TRACE_LEN := by
  induction ds with
  | nil => intro h hP; exact hP
  | cons d ds ih =>
    intro h hP
    exact ih _ (updateDelta_dropLast_mem h d hP)

/-- Claim C4 counterexample: a single ingested delta of 700 characters leaves
a final segment of 400 characters, exceeding MAX_REASONING_TRACE_LEN (300) —
the split happens at most once per update, so the remainder pushed as the new
final segment is not bounded by the cap. -/
theorem C4_counterexample :
    MAX_REASONING_TRACE_LEN <
      ((ingestAll [some (String.mk (List.replicate 700 'a'))]).getLast?.getD "").length := by
  decide

/-- Claim C4 amended: every non-final segment of traceSegments has length
exactly MAX_REASONING_TRACE_LEN (300); the final segment, however, may exceed
that bound (a single update splits at most once, so a delta whose overflow
remainder is longer than 300 characters leaves an over-long final segment). -/
theorem C4_nonfinal_segments_exact (ds : List (Option String)) (s : String)
    (hs : s ∈ (ingestAll ds).dropLast) : s.length = MAX_REASONING_TRACE_LEN :=
  foldl_updateDelta_dropLast_mem ds [] (by simp) s hs

/-- Claim C4 witness: ingesting a 300-character delta and then "b" finalizes
the first segment at exactly 300 characters. -/
theorem C4_witness :
    String.mk (List.replicate 300 'a') ∈
      (ingestAll [some (String.mk (List.replicate 300 'a')), some "b"]).dropLast ∧
    (String.mk (List.replicate 300 'a')).length = MAX_REASONING_TRACE_LEN :=
  ⟨by decide, C4_nonfinal_segments_exact [some (String.mk (List.replicate 300 'a')), some "b"] _ (by decide)⟩

/-- Claim C5 counterexample: with exactly one retained segment (no prior
segment to compare against), getMinSimilarity returns the sentinel 1000000000,
not 0 as the claim states. -/
theorem C5_counterexample : getMinSimilarity ["a"] = 1000000000 ∧ getMinSimilarity ["a"] ≠ 0 := by
  decide

/-- Claim C5 amended: getMinSimilarity returns 0 only when traceSegments is
empty; with exactly one segment it returns the untouched sentinel 1000000000
because the comparison loop runs over no prior segments. -/
theorem C5_amended (t : String) :
    getMinSimilarity [] = 0 ∧ getMinSimilarity [t] = 1000000000 := by
  refine ⟨rfl, ?_⟩
  simp [getMinSimilarity]

lemma evictLoopAux_le (fuel : Nat) (l : List String)
    (h : l.length ≤ fuel + MAX_REASONING_HISTORY_SEGMENTS) :
    (evictLoopAux fuel l).length ≤ MAX_REASONING_HISTORY_SEGMENTS := by
  induction fuel generalizing l with
  | zero =>
    rw [evictLoopAux]
    omega
  | succ n ih =>
    rw [evictLoopAux]
    split
    · apply ih
      rw [List.length_drop]
      omega
    · omega

lemma evictLoop_length (l : List String) :
    (evictLoop l).length ≤ MAX_REASONING_HISTORY_SEGMENTS :=
  evictLoopAux_le l.length l (by omega)

lemma updateDelta_length (h : List String) (d : Option String)
    (hh : h.length ≤ MAX_REASONING_HISTORY_SEGMENTS) :
    (updateDelta h d).length ≤ MAX_REASONING_HISTORY_SEGMENTS := by
  cases d with
  | none => exact hh
  | some d => exact evictLoop_length _

lemma foldl_updateDelta_length (ds : List (Option String)) :
    ∀ h : List String, h.length ≤ MAX_REASONING_HISTORY_SEGMENTS →
      (ds.foldl updateDelta h).length ≤ MAX_REASONING_HISTORY_SEGMENTS := by
  induction ds with
  | nil => intro h hh; exact hh
  | cons d ds ih =>
    intro h hh
    exact ih _ (updateDelta_length h d hh)

lemma evictLoopAux_suffix (fuel : Nat) (l : List String) :
    (evictLoopAux fuel l).IsSuffix l := by
  induction fuel generalizing l with
  | zero => exact List.suffix_refl l
  | succ n ih =>
    rw [evictLoopAux]
    split
    · exact (ih (l.drop 1)).trans (List.drop_suffix 1 l)
    · exact List.suffix_refl l

lemma evictLoopAux_length_eq (fuel : Nat) (l : List String)
    (h : l.length ≤ fuel + MAX_REASONING_HISTORY_SEGMENTS) :
    (evictLoopAux fuel l).length = min l.length MAX_REASONING_HISTORY_SEGMENTS := by
  induction fuel generalizing l with
  | zero =>
    rw [evictLoopAux]
    omega
  | succ n ih =>
    rw [evictLoopAux]
    split
    case isTrue hgt =>
      have hrec := ih (l.drop 1) (by rw [List.length_drop]; omega)
      rw [List.length_drop] at hrec
      omega
    case isFalse hgt => omega

lemma evictLoop_length_eq (l : List String) :
    (evictLoop l).length = min l.length MAX_REASONING_HISTORY_SEGMENTS :=
  evictLoopAux_length_eq l.length l (by omega)

/-- Claim C6: for every delta sequence ingested from a fresh history,
traceSegments never exceeds MAX_REASONING_HISTORY_SEGMENTS (20); and each
update evicts only from the front of the appended sequence and only until the
count is back within the cap: the result is a suffix of the appended sequence
whose length is exactly the minimum of the appended length and the cap, so the
most recently appended segments are kept intact (and nothing is evicted at all
when the appended sequence is within the cap). -/
theorem C6_capacity_fifo (ds : List (Option String)) (h : List String) (d : String) :
    (ingestAll ds).length ≤ MAX_REASONING_HISTORY_SEGMENTS ∧
    (updateDelta h (some d)).IsSuffix (appendPhase h (normalize d)) ∧
    (updateDelta h (some d)).length =
      min (appendPhase h (normalize d)).length MAX_REASONING_HISTORY_SEGMENTS := by
  refine ⟨?_, ?_, ?_⟩
  · exact foldl_updateDelta_length ds [] (by simp [MAX_REASONING_HISTORY_SEGMENTS])
  · exact evictLoopAux_suffix _ _
  · exact evictLoop_length_eq _

/-- Claim C7: with interruptInFlight true and a non-matching messageId, the
reasoning delta is discarded: the session state is entirely unchanged and no
abort or prompt call is issued (only the debug log fires; the session-control
collaborator is not called and loop detection does not run). -/
theorem C7_suppression_in_flight (s : SessionState) (messageID : String) (delta : Option String)
    (promptRes : Except String String) (abortRes : Except String Bool)
    (h1 : s.pendingAbort = true) (h2 : s.abortMessageID ≠ some messageID) :
    handleReasoningDelta s messageID delta promptRes abortRes = (s, [ExtCall.logCall "debug"]) ∧
    ExtCall.abortSession ∉ (handleReasoningDelta s messageID delta promptRes abortRes).2 ∧
    ExtCall.promptSession ∉ (handleReasoningDelta s messageID delta promptRes abortRes).2 := by
  have he : handleReasoningDelta s messageID delta promptRes abortRes = (s, [ExtCall.logCall "debug"]) := by
    simp [handleReasoningDelta, h1, h2]
  refine ⟨he, ?_, ?_⟩ <;> rw [he] <;> simp

/-- Claim C7 witness at a concrete state and event. -/
theorem C7_witness :
    handleReasoningDelta ⟨["x"], some "m1", true⟩ "other" (some "d") (Except.ok "z") (Except.ok true) =
      (⟨["x"], some "m1", true⟩, [ExtCall.logCall "debug"]) ∧
    ExtCall.abortSession ∉ (handleReasoningDelta ⟨["x"], some "m1", true⟩ "other" (some "d") (Except.ok "z") (Except.ok true)).2 ∧
    ExtCall.promptSession ∉ (handleReasoningDelta ⟨["x"], some "m1", true⟩ "other" (some "d") (Except.ok "z") (Except.ok true)).2 :=
  C7_suppression_in_flight ⟨["x"], some "m1", true⟩ "other" (some "d") (Except.ok "z") (Except.ok true) rfl (by decide)

/-- Claim C8: in the interrupt cycle triggered by a detected loop,
pendingInterruptMessageId receives the injected message's id exactly when the
prompt call succeeds; on a prompt error the error is logged, the id stays
unset, and the handler returns normally (the step is a total function, so the
detector keeps processing later events). -/
theorem C8_injection_failure (s : SessionState) (messageID : String) (delta : Option String)
    (abortRes : Except String Bool) (e : String)
    (h1 : s.abortMessageID = none) (h2 : s.pendingAbort = false)
    (hd : detectThoughtLoop (updateDelta s.reasoningHistory delta)
        (some (getMinSimilarity (updateDelta s.reasoningHistory delta))) = true) :
    (handleReasoningDelta s messageID delta (Except.error e) abortRes).1.abortMessageID = none ∧
    ExtCall.logCall "error" ∈ (handleReasoningDelta s messageID delta (Except.error e) abortRes).2 ∧
    ∀ mid, (handleReasoningDelta s messageID delta (Except.ok mid) abortRes).1.abortMessageID = some mid := by
  have hne : ¬ s.abortMessageID = some messageID := by rw [h1]; simp
  refine ⟨?_, ?_, ?_⟩
  · simp [handleReasoningDelta, hne, h2, hd, h1]
  · simp [handleReasoningDelta, hne, h2, hd]
  · intro mid
    cases abortRes with
    | error e2 => simp [handleReasoningDelta, hne, h2, hd]
    | ok acked => cases acked <;> simp [handleReasoningDelta, hne, h2, hd]

/-- Claim C8 witness: a concrete 20-segment state where detection fires; on a
prompt error the id stays unset and the error is logged, on success it is set. -/
theorem C8_witness :
    (handleReasoningDelta ⟨List.replicate 20 "aa", none, false⟩ "m" none (Except.error "boom") (Except.ok true)).1.abortMessageID = none ∧
    ExtCall.logCall "error" ∈ (handleReasoningDelta ⟨List.replicate 20 "aa", none, false⟩ "m" none (Except.error "boom") (Except.ok true)).2 ∧
    (handleReasoningDelta ⟨List.replicate 20 "aa", none, false⟩ "m" none (Except.ok "mid1") (Except.ok true)).1.abortMessageID = some "mid1" := by
  have h := C8_injection_failure ⟨List.replicate 20 "aa", none, false⟩ "m" none (Except.ok true) "boom" rfl rfl (by decide)
  exact ⟨h.1, h.2.1, h.2.2 "mid1"⟩

/-- Claim C9: starting from any session history, ingesting the delta
"Hello   WORLD" and then "hello world" yields exactly the same traceSegments
as ingesting "hello world" twice, because normalization (case-fold, collapse
whitespace runs, trim) maps both first deltas to the same appended text. -/
theorem C9_normalization_idempotence (h : List String) :
    updateDelta (updateDelta h (some "Hello   WORLD")) (some "hello world") =
      updateDelta (updateDelta h (some "hello world")) (some "hello world") := by
  have e : normalize "Hello   WORLD" = normalize "hello world" := by decide
  simp only [updateDelta, e]

/-- Claim C10: while interruptInFlight is true no abortSession or promptSession
call is ever issued and the trace history is untouched (so no loop detection
runs), and the step returns interruptInFlight to false exactly when the delta's
messageId equals pendingInterruptMessageId. -/
theorem C10_no_calls_while_in_flight (s : SessionState) (messageID : String) (delta : Option String)
    (promptRes : Except String String) (abortRes : Except String Bool)
    (h : s.pendingAbort = true) :
    ExtCall.abortSession ∉ (handleReasoningDelta s messageID delta promptRes abortRes).2 ∧
    ExtCall.promptSession ∉ (handleReasoningDelta s messageID delta promptRes abortRes).2 ∧
    (handleReasoningDelta s messageID delta promptRes abortRes).1.reasoningHistory = s.reasoningHistory ∧
    ((handleReasoningDelta s messageID delta promptRes abortRes).1.pendingAbort = false ↔
      s.abortMessageID = some messageID) := by
  by_cases hm : s.abortMessageID = some messageID
  · have he : handleReasoningDelta s messageID delta promptRes abortRes =
        ({ s with abortMessageID := none, pendingAbort := false }, [ExtCall.logCall "debug"]) := by
      simp [handleReasoningDelta, hm]
    rw [he]
    simp [hm]
  · have he : handleReasoningDelta s messageID delta promptRes abortRes = (s, [ExtCall.logCall "debug"]) := by
      simp [handleReasoningDelta, hm, h]
    rw [he]
    simp [hm, h]

/-- Claim C10 witness at a concrete in-flight state: a non-matching delta keeps
the flag, and the iff direction toward clearing needs the pending id. -/
theorem C10_witness :
    ExtCall.abortSession ∉ (handleReasoningDelta ⟨["x"], some "m1", true⟩ "other" none (Except.ok "z") (Except.ok true)).2 ∧
    ExtCall.promptSession ∉ (handleReasoningDelta ⟨["x"], some "m1", true⟩ "other" none (Except.ok "z") (Except.ok true)).2 ∧
    (handleReasoningDelta ⟨["x"], some "m1", true⟩ "other" none (Except.ok "z") (Except.ok true)).1.reasoningHistory = ["x"] ∧
    ((handleReasoningDelta ⟨["x"], some "m1", true⟩ "other" none (Except.ok "z") (Except.ok true)).1.pendingAbort = false ↔
      (some "m1" : Option String) = some "other") :=
  C10_no_calls_while_in_flight ⟨["x"], some "m1", true⟩ "other" none (Except.ok "z") (Except.ok true) rfl

end TLD
